import Mathlib

/-!
Verification of the document scan quality engine.

The embedding below follows `DocumentScanner` (grayscale conversion,
Laplacian blur score, coarse document-boundary detection, quality
classification) and the capture component's session state machine
(`handleCapture`, `handleRetake`, the 500 ms polling effect).
Pixel channel values are naturals; all arithmetic on luma values,
scores and percentages is exact rational arithmetic in place of the
source's floating point.
-/

/-- One RGBA pixel: four 8-bit channels. -/
structure RGBA where
  r : ℕ
  g : ℕ
  b : ℕ
  a : ℕ

/-- A raster frame: width, height, and the pixel at each (x, y). -/
structure Frame where
  width : ℕ
  height : ℕ
  pixel : ℕ → ℕ → RGBA

/-- Luma of a pixel: `0.299 * R + 0.587 * G + 0.114 * B` (alpha ignored),
as in the grayscale loops of `calculateBlurScore` and `detectDocumentEdges`. -/
def luma (p : RGBA) : ℚ :=
  0.299 * (p.r : ℚ) + 0.587 * (p.g : ℚ) + 0.114 * (p.b : ℚ)

/-- The grayscale field `gray` computed from a frame. -/
def gray (f : Frame) (x y : ℕ) : ℚ := luma (f.pixel x y)

/-- The 8-neighbor Laplacian response at (x, y), written exactly as the
source expression
`-gray[idx-width-1] - gray[idx-width] - gray[idx-width+1] - gray[idx-1]
 + 8*gray[idx] - gray[idx+1] - gray[idx+width-1] - gray[idx+width] - gray[idx+width+1]`
translated from flat indices to coordinates (callers use 1 ≤ x, 1 ≤ y). -/
def laplacianAt (f : Frame) (x y : ℕ) : ℚ :=
  -gray f (x - 1) (y - 1) - gray f x (y - 1) - gray f (x + 1) (y - 1) -
  gray f (x - 1) y + 8 * gray f x y - gray f (x + 1) y -
  gray f (x - 1) (y + 1) - gray f x (y + 1) - gray f (x + 1) (y + 1)

/-- Source `DocumentScanner.calculateBlurScore`: loop `y` from 1 to height-2 and
`x` from 1 to width-2 accumulating squared Laplacian responses, then divide
by `(width - 2) * (height - 2)`. -/
def calculateBlurScore (f : Frame) : ℚ :=
  let variance :=
    (List.range (f.height - 2)).foldl (fun acc j =>
      (List.range (f.width - 2)).foldl (fun acc2 i =>
        acc2 + laplacianAt f (i + 1) (j + 1) * laplacianAt f (i + 1) (j + 1)) acc) 0
  variance / (((f.width : ℚ) - 2) * ((f.height : ℚ) - 2))

/-- The binarized value at (x, y): `gray > 128 ? 255 : 0`. -/
def binaryAt (f : Frame) (x y : ℕ) : ℕ := if gray f x y > 128 then 255 else 0

/-- The coordinates visited by a stride-4 loop `for (v = 0; v < n; v += 4)`. -/
def sampleCoords (n : ℕ) : List ℕ := (List.range ((n + 3) / 4)).map (fun i => 4 * i)

/-- The sample points visited by the nested stride-4 scan of
`detectDocumentEdges` (outer loop over y, inner over x). -/
def samplePoints (f : Frame) : List (ℕ × ℕ) :=
  (sampleCoords f.height).flatMap (fun y => (sampleCoords f.width).map (fun x => (x, y)))

/-- The mutable scan state of `detectDocumentEdges`: `topLeft`,
`bottomRight` and `edgeCount`. -/
structure EdgeScanState where
  tlx : ℤ
  tly : ℤ
  brx : ℤ
  bry : ℤ
  edgeCount : ℕ
deriving DecidableEq

/-- One iteration of the scan loop body: on a foreground sample
(`binary[idx] === 0`) bump the count and widen the box. -/
def scanStep (f : Frame) (s : EdgeScanState) (p : ℕ × ℕ) : EdgeScanState :=
  if binaryAt f p.1 p.2 = 0 then
    { tlx := min s.tlx (p.1 : ℤ), tly := min s.tly (p.2 : ℤ),
      brx := max s.brx (p.1 : ℤ), bry := max s.bry (p.2 : ℤ),
      edgeCount := s.edgeCount + 1 }
  else s

/-- The full stride-4 scan, starting from
`topLeft = (width, height)`, `bottomRight = (0, 0)`, `edgeCount = 0`. -/
def edgeScan (f : Frame) : EdgeScanState :=
  (samplePoints f).foldl (scanStep f) ⟨(f.width : ℤ), (f.height : ℤ), 0, 0, 0⟩

/-- An (x, y) corner point. -/
structure Point where
  x : ℤ
  y : ℤ
deriving DecidableEq

/-- Source `DocumentScanner.detectDocumentEdges`: returns the corner list (or
none) and the fill percentage `largestArea / (width * height) * 100`. -/
def detectDocumentEdges (f : Frame) : Option (List Point) × ℚ :=
  let s := edgeScan f
  let minArea : ℚ := ((f.width : ℚ) * (f.height : ℚ)) * 0.25
  let area : ℤ := (s.brx - s.tlx) * (s.bry - s.tly)
  let accepted : Bool := decide ((area : ℚ) > minArea) && decide (s.edgeCount > 100)
  let largestArea : ℚ := if accepted then (area : ℚ) else 0
  let corners : Option (List Point) :=
    if accepted then
      some [⟨s.tlx, s.tly⟩, ⟨s.brx, s.tly⟩, ⟨s.brx, s.bry⟩, ⟨s.tlx, s.bry⟩]
    else none
  (corners, largestArea / ((f.width : ℚ) * (f.height : ℚ)) * 100)

/-- The `ScanQuality` record published after each evaluation cycle. -/
structure ScanQuality where
  isSharp : Bool
  blurScore : ℚ
  hasDocumentEdges : Bool
  documentCorners : Option (List Point)
  qualityMessage : String
  fillPercentage : ℚ
deriving DecidableEq

/-- Source `DocumentScanner.checkQuality` on one frame: blur score, sharpness
threshold 100, edge detection, `hasDocumentEdges`, and the guidance
message priority chain. -/
def checkQuality (f : Frame) : ScanQuality :=
  let blurScore := calculateBlurScore f
  let isSharp : Bool := decide (blurScore > 100)
  let r := detectDocumentEdges f
  let corners := r.1
  let fillPercentage := r.2
  let hasDocumentEdges : Bool := corners.isSome && decide (fillPercentage > 40)
  let qualityMessage : String :=
    if !hasDocumentEdges then "📄 Position document in frame"
    else if fillPercentage < 40 then "📐 Move closer"
    else if !isSharp then "⚠️ Hold steady - image is blurry"
    else "✓ Ready to capture"
  ⟨isSharp, blurScore, hasDocumentEdges, corners, qualityMessage, fillPercentage⟩

/-- The encoded still produced by `DocumentScanner.captureImage`
(`toDataURL('image/jpeg', 0.95)` at full video resolution). -/
structure CapturedImage where
  frame : Frame
  quality : ℚ

/-- Source `captureImage`: a full-resolution still of the current frame at
JPEG quality 0.95. -/
def captureImage (f : Frame) : CapturedImage := ⟨f, 0.95⟩

/-- The `DocumentCaptureCamera` component state: `scanQuality`,
`capturedImage` and `isScanning`. -/
structure CameraState where
  scanQuality : Option ScanQuality
  capturedImage : Option CapturedImage
  isScanning : Bool

/-- Initial component state: no quality yet, nothing captured, scanning. -/
def initialCameraState : CameraState := ⟨none, none, true⟩

/-- Gating expression `canCapture = scanQuality?.isSharp && scanQuality?.hasDocumentEdges`
at the level of one `ScanQuality` value: the gating decision. -/
def canCapture (q : ScanQuality) : Bool := q.isSharp && q.hasDocumentEdges

/-- The gating decision of the component, false while no `ScanQuality`
has been published (the optional-chaining `scanQuality?.` yields a falsy
value). -/
def canCaptureState (s : CameraState) : Bool :=
  match s.scanQuality with
  | some q => canCapture q
  | none => false

/-- One 500 ms polling tick: the interval callback runs only while
`isScanning` (the effect is torn down otherwise) and publishes
`checkQuality` of the current frame. -/
def tick (f : Frame) (s : CameraState) : CameraState :=
  if s.isScanning then { s with scanQuality := some (checkQuality f) } else s

/-- The capture action. The Capture button exists only while no image is
captured and is disabled unless `canCapture`; clicking runs
`handleCapture`, which grabs a full-resolution still, stores it and
stops scanning. -/
def handleCapture (f : Frame) (s : CameraState) : CameraState :=
  if s.capturedImage.isNone && canCaptureState s then
    { s with capturedImage := some (captureImage f), isScanning := false }
  else s

/-- The retake action: shown only while an image is captured; discards
the still and resumes scanning. -/
def handleRetake (s : CameraState) : CameraState :=
  if s.capturedImage.isSome then
    { s with capturedImage := none, isScanning := true }
  else s

/-! ## Spec-side formulations -/

/-- Spec-side: the interior pixels (excluding a 1-pixel border). -/
def interiorPixels (f : Frame) : Finset (ℕ × ℕ) :=
  (Finset.Ico 1 (f.width - 1)) ×ˢ (Finset.Ico 1 (f.height - 1))

/-- Spec-side: the 8-neighbor Laplacian kernel (center weight +8, each of
the eight surrounding cells weight −1) applied to the luma field. -/
def specKernelResponse (f : Frame) (x y : ℕ) : ℚ :=
  8 * gray f x y -
    (gray f (x - 1) (y - 1) + gray f x (y - 1) + gray f (x + 1) (y - 1) +
     gray f (x - 1) y + gray f (x + 1) y +
     gray f (x - 1) (y + 1) + gray f x (y + 1) + gray f (x + 1) (y + 1))

/-- Spec-side blur score: the sum over all interior pixels of the squared
kernel response, divided by (W−2)×(H−2). -/
def blurScoreSpec (f : Frame) : ℚ :=
  (∑ p in interiorPixels f, specKernelResponse f p.1 p.2 ^ 2) /
    (((f.width : ℚ) - 2) * ((f.height : ℚ) - 2))

/-! ## Helper lemmas -/

lemma foldl_add_eq (g : ℕ → ℚ) : ∀ (l : List ℕ) (a : ℚ),
    l.foldl (fun acc x => acc + g x) a = a + (l.map g).sum := by
  intro l
  induction l with
  | nil => intro a; simp
  | cons x xs ih => intro a; simp only [List.foldl_cons, List.map_cons, List.sum_cons, ih]; ring

lemma map_range_sum (g : ℕ → ℚ) (n : ℕ) :
    ((List.range n).map g).sum = ∑ i in Finset.range n, g i := by
  induction n with
  | zero => simp
  | succ n ih => rw [List.range_succ]; simp [ih, Finset.sum_range_succ]

lemma calculateBlurScore_eq_sum (f : Frame) :
    calculateBlurScore f =
      (∑ j in Finset.range (f.height - 2), ∑ i in Finset.range (f.width - 2),
        laplacianAt f (i + 1) (j + 1) * laplacianAt f (i + 1) (j + 1)) /
      (((f.width : ℚ) - 2) * ((f.height : ℚ) - 2)) := by
  unfold calculateBlurScore
  simp only [foldl_add_eq, map_range_sum, zero_add]

/-! ## Claim theorems -/

/-- C1: Capture gating decision: the user's capture action is permitted
if and only if both `isSharp` and `hasDocumentEdges` hold; if exactly one
of the two holds, capture is not permitted. -/
theorem c1_capture_gating (q : ScanQuality) :
    (canCapture q = true ↔ (q.isSharp = true ∧ q.hasDocumentEdges = true)) ∧
    (q.isSharp ≠ q.hasDocumentEdges → canCapture q = false) := by
  cases hs : q.isSharp <;> cases he : q.hasDocumentEdges <;> simp [canCapture, hs, he]

/-- A `ScanQuality` in which exactly one of the two gating inputs holds. -/
def qSharpOnly : ScanQuality := ⟨true, 200, false, none, "", 0⟩

/-- Witness for C1: with `isSharp = true` and `hasDocumentEdges = false`,
capture is not permitted. -/
theorem c1_capture_gating_witness :
    qSharpOnly.isSharp ≠ qSharpOnly.hasDocumentEdges ∧ canCapture qSharpOnly = false :=
  ⟨by decide, (c1_capture_gating qSharpOnly).2 (by decide)⟩

/-- A 2×2 all-black frame, below the 3×3 minimum assumed by the
Laplacian stage. -/
def frame2x2 : Frame := ⟨2, 2, fun _ _ => ⟨0, 0, 0, 255⟩⟩

/-- C2: The quality pipeline does NOT reject a frame whose width or
height is below 3: on a 2×2 frame the interior-pixel count
(W−2)×(H−2) is 0, yet `checkQuality` proceeds through the Laplacian stage
and silently returns an ordinary `ScanQuality` (the source divides 0 by 0,
producing NaN; in this exact model the division yields 0) instead of
failing fast with a descriptive condition. -/
theorem c2_small_frame_not_rejected :
    (((frame2x2.width : ℚ) - 2) * ((frame2x2.height : ℚ) - 2) = 0) ∧
    calculateBlurScore frame2x2 = 0 ∧
    (checkQuality frame2x2).isSharp = false ∧
    (checkQuality frame2x2).qualityMessage = "📄 Position document in frame" := by
  have hblur : calculateBlurScore frame2x2 = 0 := by
    norm_num [calculateBlurScore, frame2x2]
  refine ⟨by norm_num [frame2x2], hblur, ?_, ?_⟩
  · simp only [checkQuality, hblur]
    norm_num
  · norm_num [checkQuality, detectDocumentEdges, edgeScan, samplePoints,
      sampleCoords, List.range_succ, scanStep, binaryAt, gray, luma, frame2x2]

lemma laplacian_mul_self (f : Frame) (a b : ℕ) :
    laplacianAt f a b * laplacianAt f a b = specKernelResponse f a b ^ 2 := by
  unfold laplacianAt specKernelResponse
  ring

lemma sum_interior_reindex (g : ℕ × ℕ → ℚ) (a b : ℕ) :
    ∑ p in (Finset.Ico 1 (a - 1)) ×ˢ (Finset.Ico 1 (b - 1)), g p =
    ∑ j in Finset.range (b - 2), ∑ i in Finset.range (a - 2), g (i + 1, j + 1) := by
  rw [Finset.sum_product, Finset.sum_comm]
  have hb : b - 1 - 1 = b - 2 := by omega
  have ha : a - 1 - 1 = a - 2 := by omega
  rw [Finset.sum_Ico_eq_sum_range, hb]
  apply Finset.sum_congr rfl
  intro j _
  rw [Finset.sum_Ico_eq_sum_range, ha]
  apply Finset.sum_congr rfl
  intro i _
  rw [Nat.add_comm 1 i, Nat.add_comm 1 j]

/-- C3: Blur score algorithm: for every frame with width ≥ 3 and
height ≥ 3, the blur score equals the sum over all interior pixels of the
squared 8-neighbor Laplacian kernel response on the luma field, divided by
(W−2)×(H−2); and the frame is classified sharp exactly when this score is
strictly greater than 100. -/
theorem c3_blur_score_spec (f : Frame) (hw : 3 ≤ f.width) (hh : 3 ≤ f.height) :
    calculateBlurScore f = blurScoreSpec f ∧
    ((checkQuality f).isSharp = true ↔ calculateBlurScore f > 100) := by
  constructor
  · rw [calculateBlurScore_eq_sum]
    unfold blurScoreSpec interiorPixels
    rw [sum_interior_reindex]
    congr 1
    apply Finset.sum_congr rfl
    intro j _
    apply Finset.sum_congr rfl
    intro i _
    rw [laplacian_mul_self]
  · simp [checkQuality]

/-- A sample frame: 3×3, black except a bright center pixel. -/
def centerDotFrame : Frame :=
  ⟨3, 3, fun x y => if x = 1 ∧ y = 1 then ⟨255, 255, 255, 255⟩ else ⟨0, 0, 0, 255⟩⟩

/-- Witness for C3 at a concrete 3×3 frame. -/
theorem c3_blur_score_spec_witness :
    (3 ≤ centerDotFrame.width ∧ 3 ≤ centerDotFrame.height) ∧
    (calculateBlurScore centerDotFrame = blurScoreSpec centerDotFrame ∧
      ((checkQuality centerDotFrame).isSharp = true ↔
        calculateBlurScore centerDotFrame > 100)) :=
  ⟨⟨by decide, by decide⟩, c3_blur_score_spec centerDotFrame (by decide) (by decide)⟩

/-- A uniformly colored frame. -/
def uniformFrame (w h : ℕ) (c : RGBA) : Frame := ⟨w, h, fun _ _ => c⟩

lemma laplacianAt_uniform (w h : ℕ) (c : RGBA) (x y : ℕ) :
    laplacianAt (uniformFrame w h c) x y = 0 := by
  unfold laplacianAt gray uniformFrame
  ring

lemma blurScore_uniform (w h : ℕ) (c : RGBA) :
    calculateBlurScore (uniformFrame w h c) = 0 := by
  rw [calculateBlurScore_eq_sum]
  simp [laplacianAt_uniform]

lemma isSharp_uniform (w h : ℕ) (c : RGBA) :
    (checkQuality (uniformFrame w h c)).isSharp = false := by
  simp only [checkQuality, blurScore_uniform]
  norm_num

/-- C9: Uniform frame: for every uniformly colored (zero-variance)
frame of any width and height at least 3×3, the blur score equals 0 and
`isSharp` is false. -/
theorem c9_uniform_frame (w h : ℕ) (c : RGBA) (hw : 3 ≤ w) (hh : 3 ≤ h) :
    calculateBlurScore (uniformFrame w h c) = 0 ∧
    (checkQuality (uniformFrame w h c)).isSharp = false :=
  ⟨blurScore_uniform w h c, isSharp_uniform w h c⟩

/-- Witness for C9 at a 3×3 mid-gray frame. -/
theorem c9_uniform_frame_witness :
    calculateBlurScore (uniformFrame 3 3 ⟨128, 128, 128, 255⟩) = 0 ∧
    (checkQuality (uniformFrame 3 3 ⟨128, 128, 128, 255⟩)).isSharp = false :=
  c9_uniform_frame 3 3 ⟨128, 128, 128, 255⟩ (by decide) (by decide)

/-- The foreground samples: stride-4 sample points whose binarized value
is 0 (dark pixels, luma ≤ 128). -/
def fgSamples (f : Frame) : List (ℕ × ℕ) :=
  (samplePoints f).filter (fun p => decide (binaryAt f p.1 p.2 = 0))

/-- The number of foreground samples encountered by the scan. -/
def fgCount (f : Frame) : ℕ := (fgSamples f).length

/-- Minimal x over the foreground samples (width when there are none). -/
def bboxLeft (f : Frame) : ℤ :=
  (fgSamples f).foldl (fun a p => min a (p.1 : ℤ)) (f.width : ℤ)

/-- Minimal y over the foreground samples (height when there are none). -/
def bboxTop (f : Frame) : ℤ :=
  (fgSamples f).foldl (fun a p => min a (p.2 : ℤ)) (f.height : ℤ)

/-- Maximal x over the foreground samples (0 when there are none). -/
def bboxRight (f : Frame) : ℤ :=
  (fgSamples f).foldl (fun a p => max a (p.1 : ℤ)) 0

/-- Maximal y over the foreground samples (0 when there are none). -/
def bboxBottom (f : Frame) : ℤ :=
  (fgSamples f).foldl (fun a p => max a (p.2 : ℤ)) 0

/-- The bounding-box area `(bottomRight.x - topLeft.x) * (bottomRight.y - topLeft.y)`. -/
def bboxArea (f : Frame) : ℤ :=
  (bboxRight f - bboxLeft f) * (bboxBottom f - bboxTop f)

lemma foldl_scanStep (f : Frame) (l : List (ℕ × ℕ)) : ∀ s : EdgeScanState,
    l.foldl (scanStep f) s =
      { tlx := (l.filter (fun p => decide (binaryAt f p.1 p.2 = 0))).foldl
          (fun a p => min a (p.1 : ℤ)) s.tlx,
        tly := (l.filter (fun p => decide (binaryAt f p.1 p.2 = 0))).foldl
          (fun a p => min a (p.2 : ℤ)) s.tly,
        brx := (l.filter (fun p => decide (binaryAt f p.1 p.2 = 0))).foldl
          (fun a p => max a (p.1 : ℤ)) s.brx,
        bry := (l.filter (fun p => decide (binaryAt f p.1 p.2 = 0))).foldl
          (fun a p => max a (p.2 : ℤ)) s.bry,
        edgeCount := s.edgeCount +
          (l.filter (fun p => decide (binaryAt f p.1 p.2 = 0))).length } := by
  induction l with
  | nil => intro s; simp
  | cons p l ih =>
    intro s
    simp only [List.foldl_cons, List.filter_cons]
    by_cases h : binaryAt f p.1 p.2 = 0
    · rw [if_pos (by simp [h]), ih]
      simp [scanStep, h]
      omega
    · rw [if_neg (by simp [h]), ih]
      simp [scanStep, h]

lemma edgeScan_eq (f : Frame) :
    edgeScan f = ⟨bboxLeft f, bboxTop f, bboxRight f, bboxBottom f, fgCount f⟩ := by
  unfold edgeScan bboxLeft bboxTop bboxRight bboxBottom fgCount fgSamples
  rw [foldl_scanStep]
  simp

/-- The acceptance test of `detectDocumentEdges`:
`area > minArea && edgeCount > 100`. -/
def acceptCond (f : Frame) : Bool :=
  decide ((bboxArea f : ℚ) > ((f.width : ℚ) * (f.height : ℚ)) * 0.25) &&
    decide (100 < fgCount f)

lemma acceptCond_iff (f : Frame) :
    acceptCond f = true ↔
      ((bboxArea f : ℚ) > ((f.width : ℚ) * (f.height : ℚ)) * 0.25 ∧ 100 < fgCount f) := by
  simp [acceptCond]

lemma detect_eq (f : Frame) :
    detectDocumentEdges f =
      (if acceptCond f then
          some [⟨bboxLeft f, bboxTop f⟩, ⟨bboxRight f, bboxTop f⟩,
                ⟨bboxRight f, bboxBottom f⟩, ⟨bboxLeft f, bboxBottom f⟩]
        else none,
       (if acceptCond f then (bboxArea f : ℚ) else 0) /
         ((f.width : ℚ) * (f.height : ℚ)) * 100) := by
  unfold detectDocumentEdges acceptCond bboxArea
  rw [edgeScan_eq]

lemma detect_isSome_iff (f : Frame) :
    (detectDocumentEdges f).1.isSome = true ↔
      ((bboxArea f : ℚ) > ((f.width : ℚ) * (f.height : ℚ)) * 0.25 ∧ 100 < fgCount f) := by
  rw [← acceptCond_iff, detect_eq]
  cases h : acceptCond f <;> simp [h]

lemma detect_corners_of_accept (f : Frame) (h : (detectDocumentEdges f).1.isSome = true) :
    (detectDocumentEdges f).1 =
      some [⟨bboxLeft f, bboxTop f⟩, ⟨bboxRight f, bboxTop f⟩,
            ⟨bboxRight f, bboxBottom f⟩, ⟨bboxLeft f, bboxBottom f⟩] := by
  rw [detect_eq] at h ⊢
  cases hb : acceptCond f
  · rw [hb] at h; simp at h
  · simp [hb]

lemma detect_fill_eq (f : Frame) :
    (detectDocumentEdges f).2 =
      (if acceptCond f then (bboxArea f : ℚ) else 0) /
        ((f.width : ℚ) * (f.height : ℚ)) * 100 := by
  rw [detect_eq]

lemma detect_fill_of_accept (f : Frame) (h : (detectDocumentEdges f).1.isSome = true) :
    (detectDocumentEdges f).2 =
      (bboxArea f : ℚ) / ((f.width : ℚ) * (f.height : ℚ)) * 100 := by
  rw [detect_eq] at h
  rw [detect_fill_eq]
  cases hb : acceptCond f
  · rw [hb] at h; simp at h
  · simp [hb]

lemma detect_fill_of_none (f : Frame) (h : (detectDocumentEdges f).1 = none) :
    (detectDocumentEdges f).2 = 0 := by
  rw [detect_eq] at h
  rw [detect_fill_eq]
  cases hb : acceptCond f
  · simp [hb]
  · rw [hb] at h; simp at h

lemma foldl_min_le_init (sel : ℕ × ℕ → ℤ) (l : List (ℕ × ℕ)) : ∀ a : ℤ,
    l.foldl (fun b q => min b (sel q)) a ≤ a := by
  induction l with
  | nil => intro a; simp
  | cons q l ih =>
    intro a
    rw [List.foldl_cons]
    exact le_trans (ih _) (min_le_left _ _)

lemma foldl_min_le_mem (sel : ℕ × ℕ → ℤ) (l : List (ℕ × ℕ)) : ∀ (a : ℤ) (p : ℕ × ℕ),
    p ∈ l → l.foldl (fun b q => min b (sel q)) a ≤ sel p := by
  induction l with
  | nil => intro a p hp; simp at hp
  | cons q l ih =>
    intro a p hp
    rw [List.foldl_cons]
    rcases List.mem_cons.mp hp with h | h
    · subst h
      exact le_trans (foldl_min_le_init sel l _) (min_le_right _ _)
    · exact ih _ p h

lemma le_foldl_max_init (sel : ℕ × ℕ → ℤ) (l : List (ℕ × ℕ)) : ∀ a : ℤ,
    a ≤ l.foldl (fun b q => max b (sel q)) a := by
  induction l with
  | nil => intro a; simp
  | cons q l ih =>
    intro a
    rw [List.foldl_cons]
    exact le_trans (le_max_left _ _) (ih _)

lemma le_foldl_max_mem (sel : ℕ × ℕ → ℤ) (l : List (ℕ × ℕ)) : ∀ (a : ℤ) (p : ℕ × ℕ),
    p ∈ l → sel p ≤ l.foldl (fun b q => max b (sel q)) a := by
  induction l with
  | nil => intro a p hp; simp at hp
  | cons q l ih =>
    intro a p hp
    rw [List.foldl_cons]
    rcases List.mem_cons.mp hp with h | h
    · subst h
      exact le_trans (le_max_right _ _) (le_foldl_max_init sel l _)
    · exact ih _ p h

lemma mem_sampleCoords (n x : ℕ) : x ∈ sampleCoords n ↔ (x % 4 = 0 ∧ x < n) := by
  simp only [sampleCoords, List.mem_map, List.mem_range]
  constructor
  · rintro ⟨i, hi, rfl⟩
    omega
  · rintro ⟨h4, hx⟩
    exact ⟨x / 4, by omega, by omega⟩

lemma mem_samplePoints (f : Frame) (p : ℕ × ℕ) :
    p ∈ samplePoints f ↔
      (p.1 % 4 = 0 ∧ p.2 % 4 = 0 ∧ p.1 < f.width ∧ p.2 < f.height) := by
  obtain ⟨x, y⟩ := p
  simp only [samplePoints, List.mem_flatMap, List.mem_map, Prod.mk.injEq]
  constructor
  · rintro ⟨b, hb, a, ha, rfl, rfl⟩
    rw [mem_sampleCoords] at hb ha
    exact ⟨ha.1, hb.1, ha.2, hb.2⟩
  · rintro ⟨hx4, hy4, hxw, hyh⟩
    exact ⟨y, (mem_sampleCoords _ _).mpr ⟨hy4, hyh⟩, x,
      (mem_sampleCoords _ _).mpr ⟨hx4, hxw⟩, rfl, rfl⟩

/-- C4: Document boundary detection: a pixel is foreground exactly when
its luma is at most 128; sampling every 4th pixel in both axes, the
bounding box over the foreground samples is accepted as a document
candidate exactly when its area strictly exceeds 25% of the total frame
area AND the foreground sample count strictly exceeds 100; when accepted,
exactly four corner points are emitted in the order
[top-left, top-right, bottom-right, bottom-left]; and the fill-percentage
equals 100 × (accepted box area) / (total frame area) when accepted and 0
otherwise. -/
theorem c4_boundary_detection (f : Frame) :
    (∀ x y, binaryAt f x y = 0 ↔ gray f x y ≤ 128) ∧
    (∀ p : ℕ × ℕ, p ∈ samplePoints f ↔
      (p.1 % 4 = 0 ∧ p.2 % 4 = 0 ∧ p.1 < f.width ∧ p.2 < f.height)) ∧
    ((detectDocumentEdges f).1.isSome = true ↔
      ((bboxArea f : ℚ) > ((f.width : ℚ) * (f.height : ℚ)) * 0.25 ∧ 100 < fgCount f)) ∧
    ((detectDocumentEdges f).1.isSome = true →
      (detectDocumentEdges f).1 =
        some [⟨bboxLeft f, bboxTop f⟩, ⟨bboxRight f, bboxTop f⟩,
              ⟨bboxRight f, bboxBottom f⟩, ⟨bboxLeft f, bboxBottom f⟩]) ∧
    (∀ p ∈ fgSamples f,
      bboxLeft f ≤ (p.1 : ℤ) ∧ (p.1 : ℤ) ≤ bboxRight f ∧
      bboxTop f ≤ (p.2 : ℤ) ∧ (p.2 : ℤ) ≤ bboxBottom f) ∧
    ((detectDocumentEdges f).1.isSome = true →
      (detectDocumentEdges f).2 =
        (bboxArea f : ℚ) / ((f.width : ℚ) * (f.height : ℚ)) * 100) ∧
    ((detectDocumentEdges f).1 = none → (detectDocumentEdges f).2 = 0) := by
  refine ⟨?_, mem_samplePoints f, detect_isSome_iff f, detect_corners_of_accept f, ?_,
    detect_fill_of_accept f, detect_fill_of_none f⟩
  · intro x y
    unfold binaryAt
    by_cases h : gray f x y > 128
    · simp only [if_pos h]
      constructor
      · intro h255; exact absurd h255 (by norm_num)
      · intro hle; linarith
    · simp only [if_neg h]
      constructor
      · intro _; linarith [not_lt.mp h]
      · intro _; trivial
  · intro p hp
    exact ⟨foldl_min_le_mem _ _ _ p hp, le_foldl_max_mem _ _ _ p hp,
      foldl_min_le_mem _ _ _ p hp, le_foldl_max_mem _ _ _ p hp⟩

set_option maxRecDepth 4000

/-- A 41×37 all-black frame: 110 stride-4 samples, all foreground. -/
def darkFrame : Frame := uniformFrame 41 37 ⟨0, 0, 0, 255⟩

lemma binaryAt_darkFrame (x y : ℕ) : binaryAt darkFrame x y = 0 := by
  norm_num [binaryAt, gray, luma, darkFrame, uniformFrame]

lemma fgSamples_darkFrame : fgSamples darkFrame = samplePoints darkFrame := by
  unfold fgSamples
  exact List.filter_eq_self.mpr (fun p _ => by simp [binaryAt_darkFrame])

lemma fgCount_darkFrame : fgCount darkFrame = 110 := by
  unfold fgCount
  rw [fgSamples_darkFrame]
  decide

lemma bboxLeft_darkFrame : bboxLeft darkFrame = 0 := by
  unfold bboxLeft
  rw [fgSamples_darkFrame]
  decide

lemma bboxTop_darkFrame : bboxTop darkFrame = 0 := by
  unfold bboxTop
  rw [fgSamples_darkFrame]
  decide

lemma bboxRight_darkFrame : bboxRight darkFrame = 40 := by
  unfold bboxRight
  rw [fgSamples_darkFrame]
  decide

lemma bboxBottom_darkFrame : bboxBottom darkFrame = 36 := by
  unfold bboxBottom
  rw [fgSamples_darkFrame]
  decide

lemma bboxArea_darkFrame : bboxArea darkFrame = 1440 := by
  unfold bboxArea
  rw [bboxLeft_darkFrame, bboxTop_darkFrame, bboxRight_darkFrame, bboxBottom_darkFrame]
  decide

lemma isSome_darkFrame : (detectDocumentEdges darkFrame).1.isSome = true := by
  rw [detect_isSome_iff]
  constructor
  · rw [bboxArea_darkFrame]
    norm_num [darkFrame, uniformFrame]
  · rw [fgCount_darkFrame]
    norm_num

lemma fill_darkFrame : (detectDocumentEdges darkFrame).2 = 144000 / 1517 := by
  rw [detect_fill_of_accept darkFrame isSome_darkFrame, bboxArea_darkFrame]
  norm_num [darkFrame, uniformFrame]

/-- Witness for C4: on a 41×37 all-black frame the candidate is accepted,
the four corners come out in [TL, TR, BR, BL] order and the fill
percentage is 100·1440/1517. -/
theorem c4_boundary_detection_witness :
    (detectDocumentEdges darkFrame).1 =
      some [⟨0, 0⟩, ⟨40, 0⟩, ⟨40, 36⟩, ⟨0, 36⟩] ∧
    (detectDocumentEdges darkFrame).2 = 144000 / 1517 := by
  obtain ⟨hbin, hmem, hiff, hcor, hbound, hfillacc, hfillnone⟩ :=
    c4_boundary_detection darkFrame
  constructor
  · rw [hcor isSome_darkFrame, bboxLeft_darkFrame, bboxTop_darkFrame,
      bboxRight_darkFrame, bboxBottom_darkFrame]
  · rw [hfillacc isSome_darkFrame, bboxArea_darkFrame]
    norm_num [darkFrame, uniformFrame]

lemma samplePoints_nil_of_dim_zero (f : Frame) (h : f.width = 0 ∨ f.height = 0) :
    samplePoints f = [] := by
  unfold samplePoints
  rcases h with h | h
  · have hx : sampleCoords f.width = [] := by rw [h]; rfl
    rw [hx]
    simp
  · have hy : sampleCoords f.height = [] := by rw [h]; rfl
    rw [hy]
    rfl

/-- C10: Fill-percentage gap invariant: the fillPercentage in the
returned ScanQuality is either exactly 0 or strictly greater than 25;
no value in (0, 25] can be reported, because the percentage is computed
only from an accepted box whose area strictly exceeds 25% of the frame. -/
theorem c10_fill_percentage_gap (f : Frame) :
    (checkQuality f).fillPercentage = 0 ∨ 25 < (checkQuality f).fillPercentage := by
  have hfp : (checkQuality f).fillPercentage = (detectDocumentEdges f).2 := by
    simp [checkQuality]
  cases hs : (detectDocumentEdges f).1 with
  | none =>
    left
    rw [hfp, detect_fill_of_none f hs]
  | some c =>
    right
    have hacc : (detectDocumentEdges f).1.isSome = true := by rw [hs]; rfl
    obtain ⟨harea, hcount⟩ := (detect_isSome_iff f).mp hacc
    have hwpos : 0 < f.width := by
      by_contra hw0
      have hnil := samplePoints_nil_of_dim_zero f (Or.inl (by omega))
      have h0 : fgCount f = 0 := by
        unfold fgCount fgSamples
        rw [hnil]
        rfl
      omega
    have hhpos : 0 < f.height := by
      by_contra hh0
      have hnil := samplePoints_nil_of_dim_zero f (Or.inr (by omega))
      have h0 : fgCount f = 0 := by
        unfold fgCount fgSamples
        rw [hnil]
        rfl
      omega
    have ht : (0 : ℚ) < (f.width : ℚ) * (f.height : ℚ) := by
      have h1 : (0 : ℚ) < (f.width : ℚ) := by exact_mod_cast hwpos
      have h2 : (0 : ℚ) < (f.height : ℚ) := by exact_mod_cast hhpos
      exact mul_pos h1 h2
    rw [hfp, detect_fill_of_accept f hacc, div_mul_eq_mul_div, lt_div_iff₀ ht]
    nlinarith [harea]

/-- C5: Quality classifier: `hasDocumentEdges` equals (boundary present
AND fill-percentage > 40), and the guidance message is selected by strict
first-match priority; in particular whenever `hasDocumentEdges` is false
the message is the "position document in frame" one regardless of
sharpness. -/
theorem c5_classifier_priority (f : Frame) :
    ((checkQuality f).hasDocumentEdges = true ↔
      ((detectDocumentEdges f).1.isSome = true ∧ (detectDocumentEdges f).2 > 40)) ∧
    ((checkQuality f).hasDocumentEdges = false →
      (checkQuality f).qualityMessage = "📄 Position document in frame") ∧
    ((checkQuality f).hasDocumentEdges = true → (checkQuality f).fillPercentage < 40 →
      (checkQuality f).qualityMessage = "📐 Move closer") ∧
    ((checkQuality f).hasDocumentEdges = true → ¬(checkQuality f).fillPercentage < 40 →
      (checkQuality f).isSharp = false →
      (checkQuality f).qualityMessage = "⚠️ Hold steady - image is blurry") ∧
    ((checkQuality f).hasDocumentEdges = true → ¬(checkQuality f).fillPercentage < 40 →
      (checkQuality f).isSharp = true →
      (checkQuality f).qualityMessage = "✓ Ready to capture") := by
  refine ⟨?_, ?_, ?_, ?_, ?_⟩
  · simp [checkQuality, Bool.and_eq_true, decide_eq_true_eq]
  · intro h
    simp only [checkQuality] at h ⊢
    simp [h]
  · intro h hlt
    simp only [checkQuality] at h hlt ⊢
    simp [h, hlt]
  · intro h hge hsharp
    simp only [checkQuality] at h hge hsharp ⊢
    simp [h, hge, hsharp]
  · intro h hge hsharp
    simp only [checkQuality] at h hge hsharp ⊢
    simp [h, hge, hsharp]

/-- Witness for C5 on the 41×37 all-black frame: document edges present,
fill above 40, frame not sharp, so the "hold steady" message is chosen. -/
theorem c5_classifier_priority_witness :
    (checkQuality darkFrame).hasDocumentEdges = true ∧
    (checkQuality darkFrame).qualityMessage = "⚠️ Hold steady - image is blurry" := by
  have hE : (checkQuality darkFrame).hasDocumentEdges = true :=
    (c5_classifier_priority darkFrame).1.mpr
      ⟨isSome_darkFrame, by rw [fill_darkFrame]; norm_num⟩
  have hfp : (checkQuality darkFrame).fillPercentage = (detectDocumentEdges darkFrame).2 := by
    simp [checkQuality]
  have hge : ¬(checkQuality darkFrame).fillPercentage < 40 := by
    rw [hfp, fill_darkFrame]
    norm_num
  have hsharp : (checkQuality darkFrame).isSharp = false := isSharp_uniform 41 37 ⟨0, 0, 0, 255⟩
  exact ⟨hE, (c5_classifier_priority darkFrame).2.2.2.1 hE hge hsharp⟩

/-- C6: Dead guidance branch: the ScanQuality produced never carries
the "move closer" message, because that branch is reachable only when
`hasDocumentEdges` holds, which already requires fill-percentage > 40. -/
theorem c6_dead_move_closer_branch (f : Frame) :
    (checkQuality f).qualityMessage ≠ "📐 Move closer" := by
  simp only [checkQuality]
  cases hb : ((detectDocumentEdges f).1.isSome && decide ((detectDocumentEdges f).2 > 40))
  · rw [if_pos (show (!false) = true from rfl)]
    decide
  · have h40 : (detectDocumentEdges f).2 > 40 :=
      of_decide_eq_true ((Bool.and_eq_true _ _).mp hb).2
    have hn : ¬((detectDocumentEdges f).2 < 40) := by linarith
    rw [if_neg (show ¬(!true) = true by decide), if_neg hn]
    cases hd : decide (calculateBlurScore f > 100)
    · decide
    · decide

/-- Witness for C6 at a concrete frame. -/
theorem c6_dead_move_closer_branch_witness :
    (checkQuality darkFrame).qualityMessage ≠ "📐 Move closer" :=
  c6_dead_move_closer_branch darkFrame

/-- C7: Capture transition: from the Scanning state
(no still captured, `isScanning` true), invoking capture while the last
gating decision is false is rejected — the state is unchanged and no
still is produced; invoking it while gating is true stores one
full-resolution still, moves the session to Captured and stops the
polling timer (subsequent ticks are no-ops). -/
theorem c7_capture_transition (s : CameraState) (f : Frame)
    (h1 : s.capturedImage = none) (h2 : s.isScanning = true) :
    (canCaptureState s = false → handleCapture f s = s) ∧
    (canCaptureState s = true →
      (handleCapture f s).capturedImage = some (captureImage f) ∧
      (handleCapture f s).isScanning = false ∧
      ∀ g : Frame, tick g (handleCapture f s) = handleCapture f s) := by
  constructor
  · intro hc
    simp [handleCapture, h1, hc]
  · intro hc
    refine ⟨?_, ?_, ?_⟩
    · simp [handleCapture, h1, hc]
    · simp [handleCapture, h1, hc]
    · intro g
      simp [tick, handleCapture, h1, hc]

/-- A published quality snapshot that denies capture (blurry). -/
def qBad : ScanQuality := ⟨false, 0, true, none, "", 50⟩

/-- A published quality snapshot that permits capture. -/
def qGood : ScanQuality := ⟨true, 200, true, none, "", 80⟩

/-- A Scanning-state component whose last gating decision is negative. -/
def scanningBad : CameraState := ⟨some qBad, none, true⟩

/-- A Scanning-state component whose last gating decision is positive. -/
def scanningGood : CameraState := ⟨some qGood, none, true⟩

/-- Witness for C7: capture is a no-op from `scanningBad` and produces a
still and stops scanning from `scanningGood`. -/
theorem c7_capture_transition_witness :
    handleCapture darkFrame scanningBad = scanningBad ∧
    (handleCapture darkFrame scanningGood).capturedImage =
      some (captureImage darkFrame) ∧
    (handleCapture darkFrame scanningGood).isScanning = false :=
  ⟨(c7_capture_transition scanningBad darkFrame rfl rfl).1 rfl,
   ((c7_capture_transition scanningGood darkFrame rfl rfl).2 rfl).1,
   ((c7_capture_transition scanningGood darkFrame rfl rfl).2 rfl).2.1⟩

/-- C8: Retake round-trip: from the Captured state, retake discards
the captured still and returns the session to Scanning, and a subsequent
polling tick publishes a fresh ScanQuality value. -/
theorem c8_retake_roundtrip (s : CameraState) (g : Frame)
    (h : s.capturedImage.isSome = true) :
    (handleRetake s).capturedImage = none ∧
    (handleRetake s).isScanning = true ∧
    (tick g (handleRetake s)).scanQuality = some (checkQuality g) := by
  refine ⟨?_, ?_, ?_⟩
  · simp [handleRetake, h]
  · simp [handleRetake, h]
  · simp [handleRetake, tick, h]

/-- A Captured-state component holding a still. -/
def capturedState : CameraState := ⟨none, some (captureImage darkFrame), false⟩

/-- Witness for C8 from a concrete Captured state. -/
theorem c8_retake_roundtrip_witness :
    (handleRetake capturedState).capturedImage = none ∧
    (handleRetake capturedState).isScanning = true ∧
    (tick darkFrame (handleRetake capturedState)).scanQuality =
      some (checkQuality darkFrame) :=
  c8_retake_roundtrip capturedState darkFrame rfl
